import Mathlib

/-! DSA beamformer front end (`src/beamformer.hh`)

A shallow embedding of the host-side header of the beamformer: the pipeline
state tracker `observation_loop_state`, the tiling constants, the pinned-memory
lifecycle of `dada_handler` and the geometry loader, followed by the
properties established about them.

Conventions of the embedding:
* a `uint64_t` is a natural number below `UINT64_MOD`, and every `uint64_t`
  operation is written with an explicit reduction modulo `UINT64_MOD`;
* an `int` is an integer, reduced to the 32-bit range by `c_int` after every
  arithmetic operation;
* a member function that may assign to a member returns the pair of its result
  and the state it leaves;
* calls into libraries outside the repository (psrdada, the CUDA runtime, the
  formatted input of the C++ library) are parameters that give their results;
* the build flag `DEBUG` is a Boolean argument of the functions whose text
  depends on it.
-/

namespace Beamformer

/-! ## Machine integers -/

/-- Number of values of a `uint64_t` (2 to the power 64). -/
def UINT64_MOD : Nat := 18446744073709551616

/-- Unsigned 64-bit subtraction `x - y`. -/
def uint64_sub (x y : Nat) : Nat := (x + (UINT64_MOD - y % UINT64_MOD)) % UINT64_MOD

/-- Unsigned 64-bit increment `x++`. -/
def uint64_incr (x : Nat) : Nat := (x + 1) % UINT64_MOD

/-- Unsigned 64-bit multiplication `x * y`. -/
def uint64_mul (x y : Nat) : Nat := (x * y) % UINT64_MOD

/-- Conversion of an `int` operand to `uint64_t` (usual arithmetic conversions). -/
def int_to_uint64 (x : Int) : Nat := (x % (UINT64_MOD : Int)).toNat

/-- Reduction of an integer to the range of a 32-bit two's complement `int`. -/
def c_int (x : Int) : Int := (x + 2147483648) % 4294967296 - 2147483648

/-- Multiplication of two `int` operands. -/
def int_mul (x y : Int) : Int := c_int (x * y)

/-- Division of two `int` operands (truncating). -/
def int_div (x y : Int) : Int := c_int (Int.tdiv x y)

/-- Subtraction of two `int` operands. -/
def int_sub (x y : Int) : Int := c_int (x - y)

/-! ## Constants (`#define`s) -/

def N_BEAMS : Int := 256
def N_ANTENNAS : Int := 64
def N_FREQUENCIES : Int := 256
def N_POL : Int := 2
def N_CX : Int := 2

/-- Number of time samples averaged after beamforming: 1 in a `DEBUG` build, 16 otherwise. -/
def N_AVERAGING (DEBUG : Bool) : Int := if DEBUG then 1 else 16

def N_BITS : Int := 8
def N_STREAMS : Int := 8
def MAX_TRANSFER_SEP : Int := 2
def MAX_TOTAL_SEP : Int := 4

/-- Number of test sources (the header defines it in the `DEBUG` branch only). -/
def N_PT_SOURCES : Int := 3721

def N_GEMMS_PER_GPU : Int := 256
def N_OUTPUTS_PER_GEMM : Int := 8
def N_GEMMS_PER_BLOCK : Int := 64

def N_INPUTS_PER_OUTPUT (DEBUG : Bool) : Int := int_mul N_POL (N_AVERAGING DEBUG)

def N_TIMESTEPS_PER_GEMM (DEBUG : Bool) : Int :=
  int_mul N_OUTPUTS_PER_GEMM (N_INPUTS_PER_OUTPUT DEBUG)

def N_BLOCKS_ON_GPU : Int := int_div N_GEMMS_PER_GPU N_GEMMS_PER_BLOCK

def N_CX_IN_PER_GEMM (DEBUG : Bool) : Int :=
  int_mul (int_mul N_ANTENNAS N_FREQUENCIES) (N_TIMESTEPS_PER_GEMM DEBUG)

def N_CX_OUT_PER_GEMM (DEBUG : Bool) : Int :=
  int_mul (int_mul N_BEAMS N_FREQUENCIES) (N_TIMESTEPS_PER_GEMM DEBUG)

def N_F_PER_DETECT (DEBUG : Bool) : Int :=
  int_div (N_CX_OUT_PER_GEMM DEBUG) (N_INPUTS_PER_OUTPUT DEBUG)

def N_BYTES_POST_EXPANSION_PER_GEMM (DEBUG : Bool) : Int :=
  int_mul (N_CX_IN_PER_GEMM DEBUG) N_CX

def N_BYTES_PRE_EXPANSION_PER_GEMM (DEBUG : Bool) : Int :=
  int_div (int_mul (N_CX_IN_PER_GEMM DEBUG) N_CX) 2

def N_BYTES_PER_BLOCK (DEBUG : Bool) : Int :=
  int_mul (N_BYTES_PRE_EXPANSION_PER_GEMM DEBUG) N_GEMMS_PER_BLOCK

/-! ## The pipeline state tracker -/

/-- The class `observation_loop_state`: four `uint64_t` counters, two `uint64_t`
bounds and two flags. The member `source_batch_counter` of the `DEBUG` build, which no
member function reads or writes, is left out. -/
structure observation_loop_state where
  blocks_analyzed : Nat
  blocks_transferred : Nat
  blocks_analysis_queue : Nat
  blocks_transfer_queue : Nat
  maximum_transfer_seperation : Nat
  maximum_total_seperation : Nat
  observation_complete : Bool
  transfers_complete : Bool
  deriving DecidableEq, Repr

namespace observation_loop_state

/-- Every `uint64_t` member holds a value of its type. -/
def wf (s : observation_loop_state) : Prop :=
  s.blocks_analyzed < UINT64_MOD ∧ s.blocks_transferred < UINT64_MOD ∧
  s.blocks_analysis_queue < UINT64_MOD ∧ s.blocks_transfer_queue < UINT64_MOD ∧
  s.maximum_transfer_seperation < UINT64_MOD ∧ s.maximum_total_seperation < UINT64_MOD

instance (s : observation_loop_state) : Decidable s.wf := by
  unfold wf; infer_instance

/-- The constructor: the member initialisers give counters 0 and flags false, the
body stores the two `uint64_t` arguments. -/
def new (maximum_transfer_seperation maximum_total_seperation : Nat) : observation_loop_state :=
  { blocks_analyzed := 0
    blocks_transferred := 0
    blocks_analysis_queue := 0
    blocks_transfer_queue := 0
    maximum_transfer_seperation := maximum_transfer_seperation
    maximum_total_seperation := maximum_total_seperation
    observation_complete := false
    transfers_complete := false }

def increment_blocks_analyzed (s : observation_loop_state) : observation_loop_state :=
  { s with blocks_analyzed := uint64_incr s.blocks_analyzed }

def increment_blocks_transferred (s : observation_loop_state) : observation_loop_state :=
  { s with blocks_transferred := uint64_incr s.blocks_transferred }

def increment_blocks_analysis_queue (s : observation_loop_state) : observation_loop_state :=
  { s with blocks_analysis_queue := uint64_incr s.blocks_analysis_queue }

def increment_blocks_transfer_queue (s : observation_loop_state) : observation_loop_state :=
  { s with blocks_transfer_queue := uint64_incr s.blocks_transfer_queue }

def check_ready_for_transfer (s : observation_loop_state) : Bool × observation_loop_state :=
  ( decide (uint64_sub s.blocks_transfer_queue s.blocks_analyzed < s.maximum_total_seperation)
      && decide (uint64_sub s.blocks_transfer_queue s.blocks_transferred
                  < s.maximum_transfer_seperation)
      && !s.transfers_complete,
    s )

def check_ready_for_analysis (s : observation_loop_state) : Bool × observation_loop_state :=
  (decide (s.blocks_analysis_queue < s.blocks_transferred), s)

def check_observations_complete (DEBUG : Bool) (s : observation_loop_state) (current_gemm : Int) :
    Bool × observation_loop_state :=
  if DEBUG then
    if decide (current_gemm ≥ int_sub N_PT_SOURCES 1)
        && decide (s.blocks_analyzed = s.blocks_transfer_queue) && s.transfers_complete then
      (true, { s with observation_complete := true })
    else
      (false, s)
  else
    if decide (s.blocks_analyzed = s.blocks_transfer_queue) && s.transfers_complete then
      (true, { s with observation_complete := true })
    else
      (false, s)

def check_transfers_complete (s : observation_loop_state) : Bool × observation_loop_state :=
  if uint64_mul s.blocks_transfer_queue (int_to_uint64 N_GEMMS_PER_BLOCK)
      ≥ int_to_uint64 N_PT_SOURCES then
    (true, { s with transfers_complete := true })
  else
    (false, s)

end observation_loop_state

open observation_loop_state

/-! ## Sequences of tracker operations -/

/-- The four increment operations of the tracker. -/
inductive increment where
  | blocks_analyzed
  | blocks_transferred
  | blocks_analysis_queue
  | blocks_transfer_queue
  deriving DecidableEq, Repr

/-- Effect of an increment operation on the tracker. -/
def increment.apply : increment → observation_loop_state → observation_loop_state
  | .blocks_analyzed, s => s.increment_blocks_analyzed
  | .blocks_transferred, s => s.increment_blocks_transferred
  | .blocks_analysis_queue, s => s.increment_blocks_analysis_queue
  | .blocks_transfer_queue, s => s.increment_blocks_transfer_queue

/-- The gating discipline: the condition a caller consults before an increment. -/
def increment.gate : increment → observation_loop_state → Bool
  | .blocks_analyzed, s => decide (s.blocks_analyzed < s.blocks_analysis_queue)
  | .blocks_transferred, s => decide (s.blocks_transferred < s.blocks_transfer_queue)
  | .blocks_analysis_queue, s => (check_ready_for_analysis s).1
  | .blocks_transfer_queue, s => (check_ready_for_transfer s).1

/-- Performs a sequence of increments, gated or not. -/
def run_increments : List increment → observation_loop_state → observation_loop_state
  | [], s => s
  | i :: rest, s => run_increments rest (i.apply s)

/-- Performs a sequence of increments under the gating discipline; `none` when some
increment of the sequence is attempted while its gate is closed. -/
def run_gated : List increment → observation_loop_state → Option observation_loop_state
  | [], s => some s
  | i :: rest, s => if i.gate s then run_gated rest (i.apply s) else none

/-- The public operations of the tracker. -/
inductive tracker_op where
  | incr (i : increment)
  | ready_for_transfer
  | ready_for_analysis
  | transfers_complete
  | observations_complete (current_gemm : Int)
  deriving DecidableEq, Repr

/-- State left by one public operation (the value a check returns is dropped). -/
def tracker_op.apply (DEBUG : Bool) : tracker_op → observation_loop_state → observation_loop_state
  | .incr i, s => i.apply s
  | .ready_for_transfer, s => (check_ready_for_transfer s).2
  | .ready_for_analysis, s => (check_ready_for_analysis s).2
  | .transfers_complete, s => (check_transfers_complete s).2
  | .observations_complete g, s => (check_observations_complete DEBUG s g).2

/-- Performs a sequence of public operations. -/
def run_ops (DEBUG : Bool) : List tracker_op → observation_loop_state → observation_loop_state
  | [], s => s
  | op :: rest, s => run_ops DEBUG rest (op.apply DEBUG s)

/-- The counter ordering `analyzed ≤ analysis_queue ≤ transferred ≤ transfer_queue`. -/
def counters_ordered (s : observation_loop_state) : Prop :=
  s.blocks_analyzed ≤ s.blocks_analysis_queue ∧
  s.blocks_analysis_queue ≤ s.blocks_transferred ∧
  s.blocks_transferred ≤ s.blocks_transfer_queue

instance (s : observation_loop_state) : Decidable (counters_ordered s) := by
  unfold counters_ordered; infer_instance

/-! ## Process outcomes and the external calls of `dada_handler` -/

/-- How a call ends: it returns a value, or the process is terminated by `exit(status)`. -/
inductive outcome (α : Type) where
  | returned (value : α)
  | exited (status : Int)
  deriving DecidableEq, Repr

/-- The part of the ring buffer data block (`ipcbuf_t`) the header looks at. -/
structure ipcbuf where
  nbufs : Nat
  device : Int
  deriving DecidableEq, Repr

/-- Results of the external library calls: return codes of the psrdada calls, and for
each segment whether `cudaHostRegister` / `cudaHostUnregister` returns `cudaSuccess`. -/
structure externals where
  dada_hdu_connect : Int
  dada_hdu_lock_read : Int
  ipcbuf_lock : Int
  cudaHostRegister : Nat → Bool
  cudaHostUnregister : Nat → Bool

/-- The members of `dada_handler` the header computes with, and the list of segments
currently registered (pinned) with the device runtime. -/
structure dada_handler where
  data_block : ipcbuf
  block_size : Nat
  bytes_read : Nat
  registered : List Nat
  deriving DecidableEq, Repr

namespace dada_handler

/-- The loop `for (ibuf = 0; ibuf < nbufs; ibuf++)` of `dada_cuda_dbregister`, entered with
`remaining = nbufs - ibuf`; returns the code and the registered segments. -/
def dbregister_loop (ext : externals) : Nat → Nat → List Nat → Int × List Nat
  | 0, _, registered => (0, registered)
  | remaining + 1, ibuf, registered =>
    if ext.cudaHostRegister ibuf then
      dbregister_loop ext remaining (ibuf + 1) (registered ++ [ibuf])
    else
      (-1, registered)

def dada_cuda_dbregister (ext : externals) (db : ipcbuf) (registered : List Nat) :
    Int × List Nat :=
  if ext.ipcbuf_lock < 0 then (-1, registered)
  else if db.device ≥ 0 then (0, registered)
  else dbregister_loop ext db.nbufs 0 registered

/-- The loop of `dada_cuda_dbunregister`, entered with `remaining = nbufs - ibuf`. -/
def dbunregister_loop (ext : externals) : Nat → Nat → List Nat → Int × List Nat
  | 0, _, registered => (0, registered)
  | remaining + 1, ibuf, registered =>
    if ext.cudaHostUnregister ibuf then
      dbunregister_loop ext remaining (ibuf + 1) (registered.erase ibuf)
    else
      (-1, registered)

def dada_cuda_dbunregister (ext : externals) (db : ipcbuf) (registered : List Nat) :
    Int × List Nat :=
  if db.device ≥ 0 then (0, registered)
  else dbunregister_loop ext db.nbufs 0 registered

/-- The constructor `dada_handler(name, core, in_key)`: connect, lock for reading, pin;
each failure ends the process with `exit(-1)`. Binding to a core only prints. -/
def new (ext : externals) (db : ipcbuf) : outcome dada_handler :=
  if ext.dada_hdu_connect < 0 then .exited (-1)
  else if ext.dada_hdu_lock_read < 0 then .exited (-1)
  else
    let r := dada_cuda_dbregister ext db []
    if r.1 < 0 then .exited (-1)
    else .returned { data_block := db, block_size := 0, bytes_read := 0, registered := r.2 }

/-- The destructor `~dada_handler()`: calls `dada_cuda_dbunregister` and drops its
return value. The result is how the destructor ends and the handler it leaves. -/
def destroy (ext : externals) (h : dada_handler) : outcome dada_handler :=
  let r := dada_cuda_dbunregister ext h.data_block h.registered
  .returned { h with registered := r.2 }

/-- The member `read()`: `ipcio_open_block_read` stores the size of the next block of the
reader in `bytes_read`; `none` is the null pointer of a failed read. -/
def read (h : dada_handler) (reader : List Nat) : Option (dada_handler × List Nat) :=
  match reader with
  | [] => none
  | b :: rest => some ({ h with bytes_read := b }, rest)

/-- The member `check_transfers_complete()`. The variable `transfers_complete` it assigns
is not a member of `dada_handler`; its value is passed in and the value left is returned
next to the result. -/
def check_transfers_complete (h : dada_handler) (transfers_complete : Bool) : Bool × Bool :=
  if h.bytes_read < h.block_size then (true, true) else (false, transfers_complete)

end dada_handler

/-- The counters of `s` are the call counts `A ≤ AQ ≤ T ≤ TQ` of the four increments,
each reduced to a `uint64_t`, and the skew of the counts is within the two bounds. -/
def tracks (s : observation_loop_state) (A AQ T TQ : Nat) : Prop :=
  s.blocks_analyzed = A % UINT64_MOD ∧ s.blocks_analysis_queue = AQ % UINT64_MOD ∧
  s.blocks_transferred = T % UINT64_MOD ∧ s.blocks_transfer_queue = TQ % UINT64_MOD ∧
  A ≤ AQ ∧ AQ ≤ T ∧ T ≤ TQ ∧
  TQ - T ≤ s.maximum_transfer_seperation ∧ TQ - A ≤ s.maximum_total_seperation ∧
  s.maximum_total_seperation < UINT64_MOD

/-- The increments of `n` blocks taken through the pipeline one after the other: each is
queued for transfer, transferred, queued for analysis and analyzed. -/
def block_cycles : Nat → List increment
  | 0 => []
  | n + 1 =>
    increment.blocks_transfer_queue :: increment.blocks_transferred ::
      increment.blocks_analysis_queue :: increment.blocks_analyzed :: block_cycles n

/-- The tracker with the bounds `MAX_TRANSFER_SEP`, `MAX_TOTAL_SEP` and all counters `n`. -/
def level (n : Nat) (transfers_complete : Bool) : observation_loop_state :=
  { blocks_analyzed := n
    blocks_transferred := n
    blocks_analysis_queue := n
    blocks_transfer_queue := n
    maximum_transfer_seperation := 2
    maximum_total_seperation := 4
    observation_complete := false
    transfers_complete := transfers_complete }

/-! ## The geometry loader -/

/-- The class `antenna`, over an abstract type `F` of `float` values. -/
structure antenna (F : Type) where
  x : F
  y : F
  z : F
  deriving DecidableEq, Repr

/-- The default constructor `antenna()`. -/
def antenna.new {F : Type} [Zero F] : antenna F := ⟨0, 0, 0⟩

/-- What one numeric extraction finds on a stream that is good: a value that converts
(`value`); characters that do not convert, or convert to a number out of range, in which
case the stream fails and the library stores `v`, which is 0 or the extreme value of the
type (`failed`); or nothing but whitespace up to the end of the file, in which case the
stream fails and nothing is stored (`at_end`). -/
inductive scan (α : Type) where
  | value (v : α)
  | failed (v : α)
  | at_end
  deriving DecidableEq, Repr

/-- The numeric input of the C++ library, which is outside the repository, taken as a
parameter: what formatted extraction of an `int` and of a `float` finds at the head of
the remaining characters, and the characters it leaves. An extraction may stop inside a
whitespace-delimited field. -/
structure num_get (F : Type) where
  get_int : List Char → scan Int × List Char
  get_float : List Char → scan F × List Char

/-- An input file stream: the characters not yet extracted and whether the stream is still
good (no `failbit` or `eofbit`). -/
structure ifstream where
  good : Bool
  chars : List Char
  deriving DecidableEq, Repr

namespace ifstream

/-- The call `input_file.open(file_name)`: `none` is a file that cannot be opened. -/
def «open» (file : Option (List Char)) : ifstream :=
  match file with
  | none => { good := false, chars := [] }
  | some cs => { good := true, chars := cs }

/-- The extraction `input_file >> v` for an `int`: nothing happens on a stream that is
not good; otherwise the variable receives what the library stores. -/
def extract_int {F : Type} (g : num_get F) (st : ifstream) (v : Int) : ifstream × Int :=
  if st.good then
    match g.get_int st.chars with
    | (scan.value n, rest) => ({ st with chars := rest }, n)
    | (scan.failed n, rest) => ({ good := false, chars := rest }, n)
    | (scan.at_end, rest) => ({ good := false, chars := rest }, v)
  else (st, v)

/-- The extraction `input_file >> v` for a `float`, as `extract_int`. -/
def extract_float {F : Type} (g : num_get F) (st : ifstream) (v : F) : ifstream × F :=
  if st.good then
    match g.get_float st.chars with
    | (scan.value x, rest) => ({ st with chars := rest }, x)
    | (scan.failed x, rest) => ({ good := false, chars := rest }, x)
    | (scan.at_end, rest) => ({ good := false, chars := rest }, v)
  else (st, v)

end ifstream

/-- What `read_in_position_locations` leaves: its return value, the position array,
`*pos_set`, and whether the count mismatch warning was printed. -/
structure position_result (F : Type) where
  status : Int
  pos : Nat → antenna F
  pos_set : Bool
  warned : Bool

/-- The loop `for (ant = 0; ant < N_ANTENNAS; ant++)` of `read_in_position_locations`,
entered with `remaining = N_ANTENNAS - ant`. -/
def read_positions_loop {F : Type} (g : num_get F) :
    Nat → Nat → ifstream → (Nat → antenna F) → ifstream × (Nat → antenna F)
  | 0, _, st, pos => (st, pos)
  | remaining + 1, ant, st, pos =>
    let rx := st.extract_float g (pos ant).x
    let ry := rx.1.extract_float g (pos ant).y
    let rz := ry.1.extract_float g (pos ant).z
    read_positions_loop g remaining (ant + 1) rz.1
      (fun i => if i = ant then ⟨rx.2, ry.2, rz.2⟩ else pos i)

/-- The function `read_in_position_locations(file_name, pos, pos_set)`. The argument
`nant` is the indeterminate initial value of the local of that name. -/
def read_in_position_locations {F : Type} (g : num_get F) (file : Option (List Char))
    (nant : Int) (pos : Nat → antenna F) : outcome (position_result F) :=
  let input_file := ifstream.open file
  let r := input_file.extract_int g nant
  let warned := decide (r.2 ≠ N_ANTENNAS)
  let l := read_positions_loop g N_ANTENNAS.toNat 0 r.1 pos
  .returned { status := 0, pos := l.2, pos_set := true, warned := warned }

/-- No more than `n` values follow: within `n` extractions of a `float` the stream fails,
and the extraction after `n` values stores nothing but possibly 0. -/
def at_most_values {F : Type} [Zero F] [DecidableEq F] (g : num_get F) :
    Nat → List Char → Bool
  | 0, cs =>
    match (g.get_float cs).1 with
    | scan.value _ => false
    | scan.failed v => decide (v = 0)
    | scan.at_end => true
  | n + 1, cs =>
    match g.get_float cs with
    | (scan.value _, rest) => at_most_values g n rest
    | (scan.failed _, _) => true
    | (scan.at_end, _) => true

/-- A stream that is still good has no more than `n` values left. -/
def within_budget {F : Type} [Zero F] [DecidableEq F] (g : num_get F) (st : ifstream)
    (n : Nat) : Prop :=
  st.good = true → at_most_values g n st.chars = true

/-! ### Decimal numerals, for concrete files -/

/-- A stand-in for `float` values in concrete files: the exact decimal number
`mantissa * 10 ^ exponent` (rounding to the `float` format is not modelled). -/
structure decimal where
  mantissa : Int
  exponent : Int
  deriving DecidableEq, Repr

instance : Zero decimal := ⟨⟨0, 0⟩⟩

instance (n : Nat) : OfNat decimal n := ⟨⟨n, 0⟩⟩

/-- The whitespace of the C locale: space and the characters 9 to 13. -/
def is_space (c : Char) : Bool :=
  c.toNat == 32 || (decide (9 ≤ c.toNat) && decide (c.toNat ≤ 13))

def skip_space : List Char → List Char
  | [] => []
  | c :: cs => if is_space c then skip_space cs else c :: cs

/-- An optional sign: whether it is a minus, and the characters after it. -/
def read_sign : List Char → Bool × List Char
  | [] => (false, [])
  | c :: cs => if c.toNat = 45 then (true, cs) else if c.toNat = 43 then (false, cs)
               else (false, c :: cs)

/-- A maximal run of decimal digits: the number read so far, the count of digits, the
characters left. -/
def read_digits : List Char → Nat → Nat → Nat × Nat × List Char
  | [], acc, n => (acc, n, [])
  | c :: cs, acc, n =>
    if 48 ≤ c.toNat ∧ c.toNat ≤ 57 then read_digits cs (10 * acc + (c.toNat - 48)) (n + 1)
    else (acc, n, c :: cs)

/-- An optional fraction: a point followed by a run of digits. -/
def read_fraction : List Char → Nat × Nat × List Char
  | [] => (0, 0, [])
  | c :: cs => if c.toNat = 46 then read_digits cs 0 0 else (0, 0, c :: cs)

def INT_MAX : Int := 2147483647
def INT_MIN : Int := -2147483648
def FLT_MAX : Nat := 340282346638528859811704183484516925440

/-- Extraction of an `int` in decimal notation: whitespace is skipped, then an optional
sign and a run of digits are taken, stopping at the first character that cannot continue
the numeral. No digit stores 0 and fails; a number out of range stores the limit and
fails. -/
def decimal_get_int (cs : List Char) : scan Int × List Char :=
  match skip_space cs with
  | [] => (scan.at_end, [])
  | c :: rest =>
    let s := read_sign (c :: rest)
    let d := read_digits s.2 0 0
    if d.2.1 = 0 then (scan.failed 0, d.2.2)
    else
      let v : Int := if s.1 then -(d.1 : Int) else (d.1 : Int)
      if v > INT_MAX then (scan.failed INT_MAX, d.2.2)
      else if v < INT_MIN then (scan.failed INT_MIN, d.2.2)
      else (scan.value v, d.2.2)

/-- Whether `mantissa * 10 ^ exponent` exceeds `FLT_MAX` in magnitude. -/
def exceeds_flt_max (mantissa : Nat) (exponent : Int) : Bool :=
  if exponent ≥ 0 then decide (mantissa * 10 ^ exponent.toNat > FLT_MAX)
  else decide (mantissa > FLT_MAX * 10 ^ (-exponent).toNat)

/-- An optional exponent: `none` when there is none, otherwise its value (`none` inside
when the `e` is followed by no digit) and the characters left. -/
def read_exponent : List Char → Option (Option Int × List Char)
  | [] => none
  | c :: cs =>
    if c.toNat = 101 ∨ c.toNat = 69 then
      let s := read_sign cs
      let d := read_digits s.2 0 0
      if d.2.1 = 0 then some (none, d.2.2)
      else some (some (if s.1 then -(d.1 : Int) else (d.1 : Int)), d.2.2)
    else none

/-- Extraction of a `float` in decimal notation: whitespace is skipped, then an optional
sign, digits, an optional fraction and an optional exponent are taken, stopping at the
first character that cannot continue the numeral. No digit, or an exponent without digits,
stores 0 and fails; a number out of range stores `FLT_MAX` with its sign and fails. -/
def decimal_get_float (cs : List Char) : scan decimal × List Char :=
  match skip_space cs with
  | [] => (scan.at_end, [])
  | c :: rest =>
    let s := read_sign (c :: rest)
    let d := read_digits s.2 0 0
    let f := read_fraction d.2.2
    if d.2.1 + f.2.1 = 0 then (scan.failed 0, f.2.2)
    else
      let m : Nat := d.1 * 10 ^ f.2.1 + f.1
      let sign : Int := if s.1 then -1 else 1
      match read_exponent f.2.2 with
      | some (none, left) => (scan.failed 0, left)
      | some (some e, left) =>
        if m = 0 then (scan.value 0, left)
        else if exceeds_flt_max m (e - f.2.1) then
          (scan.failed ⟨sign * FLT_MAX, 0⟩, left)
        else (scan.value ⟨sign * m, e - f.2.1⟩, left)
      | none =>
        if m = 0 then (scan.value 0, f.2.2)
        else if exceeds_flt_max m (-(f.2.1 : Int)) then
          (scan.failed ⟨sign * FLT_MAX, 0⟩, f.2.2)
        else (scan.value ⟨sign * m, -(f.2.1 : Int)⟩, f.2.2)

/-- Numeric input of decimal numerals. -/
def decimal_num_get : num_get decimal :=
  { get_int := decimal_get_int, get_float := decimal_get_float }

/-- External calls that all succeed, except `cudaHostUnregister` on segment 0. -/
def unregister_fails_on_first : externals :=
  { dada_hdu_connect := 0
    dada_hdu_lock_read := 0
    ipcbuf_lock := 0
    cudaHostRegister := fun _ => true
    cudaHostUnregister := fun ibuf => decide (ibuf ≠ 0) }

/-- Number of `increment_blocks_transfer_queue` calls among the operations. -/
def transfer_queue_calls : List tracker_op → Nat
  | [] => 0
  | tracker_op.incr increment.blocks_transfer_queue :: rest => transfer_queue_calls rest + 1
  | _ :: rest => transfer_queue_calls rest

/-! ## Gated runs that may also end the transfers -/

/-- What moves the tracker during an observation: one of the four increments, or the
assignment `transfers_complete = 1` that either `check_transfers_complete` performs. -/
inductive gated_event where
  | incr (i : increment)
  | set_transfers_complete
  deriving DecidableEq, Repr

/-- Effect of an event: an increment is performed only when its gate is open (`none`
otherwise), the flag may be set in any state. -/
def gated_event.step : gated_event → observation_loop_state → Option observation_loop_state
  | .incr i, s => if i.gate s then some (i.apply s) else none
  | .set_transfers_complete, s => some { s with transfers_complete := true }

/-- Performs a sequence of events; `none` when some increment of it is attempted while
its gate is closed. -/
def run_events : List gated_event → observation_loop_state → Option observation_loop_state
  | [], s => some s
  | e :: rest, s =>
    match e.step s with
    | none => none
    | some s' => run_events rest s'

/-- Number of increments among the events. -/
def increment_count : List gated_event → Nat
  | [] => 0
  | .incr _ :: rest => increment_count rest + 1
  | .set_transfers_complete :: rest => increment_count rest

/-! ## Properties -/

/-- On in-range operands with `y ≤ x` the unsigned subtraction is the ordinary one. -/
theorem uint64_sub_of_le {x y : Nat} (hx : x < UINT64_MOD) (hyx : y ≤ x) :
    uint64_sub x y = x - y := by
  unfold uint64_sub UINT64_MOD at *
  omega

/-- C1: on a tracker whose counters satisfy `blocks_analyzed ≤ blocks_transfer_queue`
and `blocks_transferred ≤ blocks_transfer_queue`, `check_ready_for_transfer` returns true
exactly when both differences are strictly below their bound and `transfers_complete`
is false, and it leaves the whole state (counters, bounds, flags) as it was. -/
theorem C1_check_ready_for_transfer_iff (s : observation_loop_state) (hwf : s.wf)
    (ha : s.blocks_analyzed ≤ s.blocks_transfer_queue)
    (ht : s.blocks_transferred ≤ s.blocks_transfer_queue) :
    ((check_ready_for_transfer s).1 = true ↔
        (s.blocks_transfer_queue - s.blocks_analyzed < s.maximum_total_seperation ∧
         s.blocks_transfer_queue - s.blocks_transferred < s.maximum_transfer_seperation ∧
         s.transfers_complete = false)) ∧
      (check_ready_for_transfer s).2 = s := by
  obtain ⟨_, _, _, htq, _, _⟩ := hwf
  refine ⟨?_, rfl⟩
  simp only [check_ready_for_transfer, Bool.and_eq_true, decide_eq_true_eq,
    Bool.not_eq_true', uint64_sub_of_le htq ha, uint64_sub_of_le htq ht]
  tauto

/-- C1 witness: the reference bounds (2, 4) with three blocks queued, two transferred
and one analyzed. -/
theorem C1_check_ready_for_transfer_iff_witness :
    (((check_ready_for_transfer ⟨1, 2, 1, 3, 2, 4, false, false⟩).1 = true ↔
        (3 - 1 < 4 ∧ 3 - 2 < 2 ∧ false = false)) ∧
      (check_ready_for_transfer ⟨1, 2, 1, 3, 2, 4, false, false⟩).2
        = ⟨1, 2, 1, 3, 2, 4, false, false⟩) :=
  C1_check_ready_for_transfer_iff ⟨1, 2, 1, 3, 2, 4, false, false⟩
    (by decide) (by decide) (by decide)

/-! ### Unsigned arithmetic under the tracking invariant -/

theorem tracks_sub_analyzed {s : observation_loop_state} {A AQ T TQ : Nat}
    (h : tracks s A AQ T TQ) :
    uint64_sub s.blocks_transfer_queue s.blocks_analyzed = TQ - A := by
  obtain ⟨ha, _, _, htq, _, _, _, _, hd, hm⟩ := h
  rw [ha, htq]
  unfold uint64_sub UINT64_MOD at *
  omega

theorem tracks_sub_transferred {s : observation_loop_state} {A AQ T TQ : Nat}
    (h : tracks s A AQ T TQ) :
    uint64_sub s.blocks_transfer_queue s.blocks_transferred = TQ - T := by
  obtain ⟨_, _, ht, htq, _, _, _, _, hd, hm⟩ := h
  rw [ht, htq]
  unfold uint64_sub UINT64_MOD at *
  omega

theorem tracks_new (mts mtot : Nat) (hm : mtot < UINT64_MOD) :
    tracks (observation_loop_state.new mts mtot) 0 0 0 0 := by
  simp [tracks, observation_loop_state.new, hm]

theorem tracks_transfer_queue {s : observation_loop_state} {A AQ T TQ : Nat}
    (h : tracks s A AQ T TQ) (hg : (check_ready_for_transfer s).1 = true) :
    tracks s.increment_blocks_transfer_queue A AQ T (TQ + 1) := by
  have h1 := tracks_sub_analyzed h
  have h2 := tracks_sub_transferred h
  simp only [check_ready_for_transfer, Bool.and_eq_true, decide_eq_true_eq, h1, h2] at hg
  obtain ⟨ha, haq, ht, htq, _, _, _, _, _, hm⟩ := h
  simp only [tracks, increment_blocks_transfer_queue, uint64_incr]
  refine ⟨ha, haq, ht, ?_, ?_, ?_, ?_, ?_, ?_, hm⟩
  · rw [htq]; unfold UINT64_MOD; omega
  all_goals omega

theorem tracks_transferred {s : observation_loop_state} {A AQ T TQ : Nat}
    (h : tracks s A AQ T TQ) (hg : s.blocks_transferred < s.blocks_transfer_queue) :
    tracks s.increment_blocks_transferred A AQ (T + 1) TQ := by
  obtain ⟨ha, haq, ht, htq, _, _, _, _, _, hm⟩ := h
  have hne : T ≠ TQ := by rintro rfl; omega
  simp only [tracks, increment_blocks_transferred, uint64_incr]
  refine ⟨ha, haq, ?_, htq, ?_, ?_, ?_, ?_, ?_, hm⟩
  · rw [ht]; unfold UINT64_MOD; omega
  all_goals omega

theorem tracks_analysis_queue {s : observation_loop_state} {A AQ T TQ : Nat}
    (h : tracks s A AQ T TQ) (hg : s.blocks_analysis_queue < s.blocks_transferred) :
    tracks s.increment_blocks_analysis_queue A (AQ + 1) T TQ := by
  obtain ⟨ha, haq, ht, htq, _, _, _, _, _, hm⟩ := h
  have hne : AQ ≠ T := by rintro rfl; omega
  simp only [tracks, increment_blocks_analysis_queue, uint64_incr]
  refine ⟨ha, ?_, ht, htq, ?_, ?_, ?_, ?_, ?_, hm⟩
  · rw [haq]; unfold UINT64_MOD; omega
  all_goals omega

theorem tracks_analyzed {s : observation_loop_state} {A AQ T TQ : Nat}
    (h : tracks s A AQ T TQ) (hg : s.blocks_analyzed < s.blocks_analysis_queue) :
    tracks s.increment_blocks_analyzed (A + 1) AQ T TQ := by
  obtain ⟨ha, haq, ht, htq, _, _, _, _, _, hm⟩ := h
  have hne : A ≠ AQ := by rintro rfl; omega
  simp only [tracks, increment_blocks_analyzed, uint64_incr]
  refine ⟨?_, haq, ht, htq, ?_, ?_, ?_, ?_, ?_, hm⟩
  · rw [ha]; unfold UINT64_MOD; omega
  all_goals omega

/-- Every state reached by gated increments from a tracked state is tracked, by counts
whose sum has grown by the number of increments. -/
theorem tracks_run_gated (incs : List increment) :
    ∀ (s s' : observation_loop_state) (A AQ T TQ : Nat), tracks s A AQ T TQ →
      run_gated incs s = some s' →
      ∃ A' AQ' T' TQ', tracks s' A' AQ' T' TQ' ∧
        A' + AQ' + T' + TQ' = A + AQ + T + TQ + incs.length := by
  induction incs with
  | nil =>
    intro s s' A AQ T TQ h hr
    simp only [run_gated, Option.some.injEq] at hr
    subst hr
    exact ⟨A, AQ, T, TQ, h, by simp⟩
  | cons i rest ih =>
    intro s s' A AQ T TQ h hr
    simp only [run_gated] at hr
    split at hr
    · rename_i hg
      cases i with
      | blocks_analyzed =>
        simp only [increment.gate, decide_eq_true_eq] at hg
        obtain ⟨A', AQ', T', TQ', ht, hs⟩ := ih _ _ _ _ _ _ (tracks_analyzed h hg) hr
        exact ⟨A', AQ', T', TQ', ht, by simp only [List.length_cons]; omega⟩
      | blocks_transferred =>
        simp only [increment.gate, decide_eq_true_eq] at hg
        obtain ⟨A', AQ', T', TQ', ht, hs⟩ := ih _ _ _ _ _ _ (tracks_transferred h hg) hr
        exact ⟨A', AQ', T', TQ', ht, by simp only [List.length_cons]; omega⟩
      | blocks_analysis_queue =>
        simp only [increment.gate, check_ready_for_analysis, decide_eq_true_eq] at hg
        obtain ⟨A', AQ', T', TQ', ht, hs⟩ := ih _ _ _ _ _ _ (tracks_analysis_queue h hg) hr
        exact ⟨A', AQ', T', TQ', ht, by simp only [List.length_cons]; omega⟩
      | blocks_transfer_queue =>
        simp only [increment.gate] at hg
        obtain ⟨A', AQ', T', TQ', ht, hs⟩ := ih _ _ _ _ _ _ (tracks_transfer_queue h hg) hr
        exact ⟨A', AQ', T', TQ', ht, by simp only [List.length_cons]; omega⟩
    · simp at hr

/-! ### Bounds and flags under increments -/

theorem increment_apply_frame (i : increment) (s : observation_loop_state) :
    (i.apply s).maximum_transfer_seperation = s.maximum_transfer_seperation ∧
    (i.apply s).maximum_total_seperation = s.maximum_total_seperation ∧
    (i.apply s).observation_complete = s.observation_complete ∧
    (i.apply s).transfers_complete = s.transfers_complete := by
  cases i <;> exact ⟨rfl, rfl, rfl, rfl⟩

theorem run_increments_frame (incs : List increment) :
    ∀ s : observation_loop_state,
      (run_increments incs s).maximum_transfer_seperation = s.maximum_transfer_seperation ∧
      (run_increments incs s).maximum_total_seperation = s.maximum_total_seperation ∧
      (run_increments incs s).observation_complete = s.observation_complete ∧
      (run_increments incs s).transfers_complete = s.transfers_complete := by
  induction incs with
  | nil => intro s; exact ⟨rfl, rfl, rfl, rfl⟩
  | cons i rest ih =>
    intro s
    obtain ⟨h1, h2, h3, h4⟩ := ih (i.apply s)
    obtain ⟨g1, g2, g3, g4⟩ := increment_apply_frame i s
    simp only [run_increments]
    exact ⟨h1.trans g1, h2.trans g2, h3.trans g3, h4.trans g4⟩

/-- A gated run that succeeds is the plain run of the same increments. -/
theorem run_gated_eq_run_increments (incs : List increment) :
    ∀ s s' : observation_loop_state, run_gated incs s = some s' → s' = run_increments incs s := by
  induction incs with
  | nil => intro s s' h; simpa [run_gated, run_increments] using h.symm
  | cons i rest ih =>
    intro s s' h
    simp only [run_gated] at h
    split at h
    · exact ih _ _ h
    · simp at h

theorem run_gated_append (xs ys : List increment) :
    ∀ s : observation_loop_state,
      run_gated (xs ++ ys) s = (run_gated xs s).bind (run_gated ys) := by
  induction xs with
  | nil => intro s; rfl
  | cons i rest ih =>
    intro s
    simp only [List.cons_append, run_gated]
    split
    · exact ih _
    · rfl

/-- In a state where everything queued has been analyzed and the transfers are complete,
no gate is open: a gated run from it performs no increment. -/
theorem run_gated_of_complete (incs : List increment) (s s' : observation_loop_state)
    (h1 : s.blocks_analyzed = s.blocks_analysis_queue)
    (h2 : s.blocks_analysis_queue = s.blocks_transferred)
    (h3 : s.blocks_transferred = s.blocks_transfer_queue)
    (htc : s.transfers_complete = true) (hr : run_gated incs s = some s') : s' = s := by
  cases incs with
  | nil => simpa [run_gated] using hr.symm
  | cons i rest =>
    have hg : i.gate s = false := by
      cases i <;>
        simp [increment.gate, check_ready_for_transfer, check_ready_for_analysis, htc] <;> omega
    simp [run_gated, hg] at hr

/-! ### Blocks taken through the pipeline one at a time -/

theorem uint64_sub_self (k : Nat) : uint64_sub k k = 0 := by
  unfold uint64_sub UINT64_MOD at *
  omega

theorem uint64_incr_of_lt {k : Nat} (hk : k + 1 < UINT64_MOD) : uint64_incr k = k + 1 := by
  unfold uint64_incr UINT64_MOD at *
  omega

theorem run_gated_block_cycles (n : Nat) :
    ∀ k : Nat, k + n < UINT64_MOD →
      run_gated (block_cycles n) (level k false) = some (level (k + n) false) := by
  induction n with
  | zero => intro k _; rfl
  | succ n ih =>
    intro k hk
    have hk1 : k + 1 < UINT64_MOD := by omega
    have e : (k + 1) + n = k + (n + 1) := by omega
    have hstep : run_gated (block_cycles (n + 1)) (level k false)
        = run_gated (block_cycles n) (level (k + 1) false) := by
      simp [block_cycles, run_gated, increment.gate, increment.apply, level,
        check_ready_for_transfer, check_ready_for_analysis,
        increment_blocks_transfer_queue, increment_blocks_transferred,
        increment_blocks_analysis_queue, increment_blocks_analyzed,
        uint64_sub_self, uint64_incr_of_lt hk1]
    rw [hstep, ih (k + 1) (by omega), e]

/-- C2: bounded skew. In every state reached from the initial state by gated increments,
`blocks_transfer_queue - blocks_transferred` is at most `maximum_transfer_seperation` and
`blocks_transfer_queue - blocks_analyzed` at most `maximum_total_seperation`, both as the
unsigned differences the code computes and as differences of natural numbers; and in a
state in which a transfer is admitted (`check_ready_for_transfer` true) both differences
are strictly below their bound. -/
theorem C2_bounded_skew (mts mtot : Nat) (hmtot : mtot < UINT64_MOD)
    (incs : List increment) (s : observation_loop_state)
    (hr : run_gated incs (observation_loop_state.new mts mtot) = some s) :
    s.maximum_transfer_seperation = mts ∧ s.maximum_total_seperation = mtot ∧
    uint64_sub s.blocks_transfer_queue s.blocks_transferred ≤ mts ∧
    uint64_sub s.blocks_transfer_queue s.blocks_analyzed ≤ mtot ∧
    s.blocks_transfer_queue - s.blocks_transferred ≤ mts ∧
    s.blocks_transfer_queue - s.blocks_analyzed ≤ mtot ∧
    ((check_ready_for_transfer s).1 = true →
      uint64_sub s.blocks_transfer_queue s.blocks_transferred < mts ∧
      uint64_sub s.blocks_transfer_queue s.blocks_analyzed < mtot ∧
      s.blocks_transfer_queue - s.blocks_transferred < mts ∧
      s.blocks_transfer_queue - s.blocks_analyzed < mtot) := by
  obtain ⟨A, AQ, T, TQ, ht, _⟩ :=
    tracks_run_gated incs _ _ 0 0 0 0 (tracks_new mts mtot hmtot) hr
  have hs := run_gated_eq_run_increments incs _ _ hr
  obtain ⟨b1, b2, _, _⟩ := run_increments_frame incs (observation_loop_state.new mts mtot)
  rw [← hs] at b1 b2
  have b1' : s.maximum_transfer_seperation = mts := b1
  have b2' : s.maximum_total_seperation = mtot := b2
  have e1 := tracks_sub_analyzed ht
  have e2 := tracks_sub_transferred ht
  obtain ⟨ha, _, htt, htq, _, _, _, d1, d2, _⟩ := ht
  have n1 : s.blocks_transfer_queue - s.blocks_transferred ≤ TQ - T := by
    rw [htq, htt]; unfold UINT64_MOD at *; omega
  have n2 : s.blocks_transfer_queue - s.blocks_analyzed ≤ TQ - A := by
    rw [htq, ha]; unfold UINT64_MOD at *; omega
  refine ⟨b1', b2', by omega, by omega, by omega, by omega, ?_⟩
  intro hg
  simp only [check_ready_for_transfer, Bool.and_eq_true, decide_eq_true_eq, e1, e2, b1',
    b2'] at hg
  omega

/-- C2 witness: with the bounds (2, 4), after two blocks are queued and one is transferred. -/
theorem C2_bounded_skew_witness :
    (observation_loop_state.mk 0 1 0 2 2 4 false false).maximum_transfer_seperation = 2 ∧
    (observation_loop_state.mk 0 1 0 2 2 4 false false).maximum_total_seperation = 4 ∧
    uint64_sub 2 1 ≤ 2 ∧ uint64_sub 2 0 ≤ 4 ∧ 2 - 1 ≤ 2 ∧ 2 - 0 ≤ 4 ∧
    ((check_ready_for_transfer (observation_loop_state.mk 0 1 0 2 2 4 false false)).1 = true →
      uint64_sub 2 1 < 2 ∧ uint64_sub 2 0 < 4 ∧ 2 - 1 < 2 ∧ 2 - 0 < 4) :=
  C2_bounded_skew 2 4 (by decide)
    [increment.blocks_transfer_queue, increment.blocks_transfer_queue,
      increment.blocks_transferred]
    (observation_loop_state.mk 0 1 0 2 2 4 false false) (by decide)

/-- C6 (as amended): counter ordering. In every state reached from the initial state by
fewer than 2^64 gated increments, `blocks_analyzed ≤ blocks_analysis_queue ≤
blocks_transferred ≤ blocks_transfer_queue`. -/
theorem C6_counter_ordering (mts mtot : Nat) (hmtot : mtot < UINT64_MOD)
    (incs : List increment) (s : observation_loop_state)
    (hr : run_gated incs (observation_loop_state.new mts mtot) = some s)
    (hlen : incs.length < UINT64_MOD) :
    s.blocks_analyzed ≤ s.blocks_analysis_queue ∧
    s.blocks_analysis_queue ≤ s.blocks_transferred ∧
    s.blocks_transferred ≤ s.blocks_transfer_queue := by
  obtain ⟨A, AQ, T, TQ, ht, hsum⟩ :=
    tracks_run_gated incs _ _ 0 0 0 0 (tracks_new mts mtot hmtot) hr
  obtain ⟨ha, haq, htt, htq, _, _, _, _, _, _⟩ := ht
  rw [ha, haq, htt, htq]
  unfold UINT64_MOD at *
  omega

/-- C6 witness: with the bounds (2, 4), after two blocks are queued, one is transferred
and queued for analysis. -/
theorem C6_counter_ordering_witness :
    (0 : Nat) ≤ 1 ∧ (1 : Nat) ≤ 1 ∧ (1 : Nat) ≤ 2 :=
  C6_counter_ordering 2 4 (by decide)
    [increment.blocks_transfer_queue, increment.blocks_transfer_queue,
      increment.blocks_transferred, increment.blocks_analysis_queue]
    (observation_loop_state.mk 0 1 1 2 2 4 false false) (by decide) (by decide)

/-- C6 counterexample: with the bounds (2, 4), taking 2^64 - 1 blocks through the pipeline
one at a time and queueing one more block for transfer is a gated run; it wraps
`blocks_transfer_queue` to 0 while the three other counters are 2^64 - 1, so the counters
are not ordered. -/
theorem C6_counter_ordering_fails_after_wraparound :
    run_gated (block_cycles 18446744073709551615 ++ [increment.blocks_transfer_queue])
        (observation_loop_state.new 2 4)
      = some (observation_loop_state.mk 18446744073709551615 18446744073709551615
          18446744073709551615 0 2 4 false false) ∧
    ¬ counters_ordered (observation_loop_state.mk 18446744073709551615 18446744073709551615
          18446744073709551615 0 2 4 false false) := by
  constructor
  · have h := run_gated_block_cycles 18446744073709551615 0 (by unfold UINT64_MOD; omega)
    have e : observation_loop_state.new 2 4 = level 0 false := rfl
    rw [run_gated_append, e, h]
    simp only [Nat.zero_add, Option.bind]
    simp [run_gated, increment.gate, increment.apply, level, check_ready_for_transfer,
      increment_blocks_transfer_queue, uint64_sub_self, uint64_incr, UINT64_MOD]
  · unfold counters_ordered
    simp

/-- C4: `check_observations_complete(current_gemm)` returns true exactly when
`blocks_analyzed == blocks_transfer_queue` and `transfers_complete` is set (and, in a
`DEBUG` build, `current_gemm >= N_PT_SOURCES - 1`); when it returns true the state it
leaves has `observation_complete` set, and in either case the counters, the bounds and
`transfers_complete` are as before (when it returns false the whole state is). -/
theorem C4_check_observations_complete (DEBUG : Bool) (s : observation_loop_state)
    (current_gemm : Int) :
    ((check_observations_complete DEBUG s current_gemm).1 = true ↔
      (s.blocks_analyzed = s.blocks_transfer_queue ∧ s.transfers_complete = true ∧
        (DEBUG = true → current_gemm ≥ N_PT_SOURCES - 1))) ∧
    ((check_observations_complete DEBUG s current_gemm).1 = true →
      (check_observations_complete DEBUG s current_gemm).2.observation_complete = true) ∧
    ((check_observations_complete DEBUG s current_gemm).1 = false →
      (check_observations_complete DEBUG s current_gemm).2 = s) ∧
    (check_observations_complete DEBUG s current_gemm).2.blocks_analyzed = s.blocks_analyzed ∧
    (check_observations_complete DEBUG s current_gemm).2.blocks_transferred
      = s.blocks_transferred ∧
    (check_observations_complete DEBUG s current_gemm).2.blocks_analysis_queue
      = s.blocks_analysis_queue ∧
    (check_observations_complete DEBUG s current_gemm).2.blocks_transfer_queue
      = s.blocks_transfer_queue ∧
    (check_observations_complete DEBUG s current_gemm).2.maximum_transfer_seperation
      = s.maximum_transfer_seperation ∧
    (check_observations_complete DEBUG s current_gemm).2.maximum_total_seperation
      = s.maximum_total_seperation ∧
    (check_observations_complete DEBUG s current_gemm).2.transfers_complete
      = s.transfers_complete := by
  have hc : int_sub N_PT_SOURCES 1 = N_PT_SOURCES - 1 := by decide
  unfold check_observations_complete
  rw [hc]
  by_cases h1 : current_gemm ≥ N_PT_SOURCES - 1 <;>
    by_cases h2 : s.blocks_analyzed = s.blocks_transfer_queue <;>
    cases h3 : s.transfers_complete <;> cases DEBUG <;> simp [h1, h2, h3]

/-- Operations never clear `transfers_complete`. -/
theorem tracker_op_apply_transfers_complete (DEBUG : Bool) (op : tracker_op)
    (s : observation_loop_state) (h : s.transfers_complete = true) :
    (op.apply DEBUG s).transfers_complete = true := by
  cases op with
  | incr i => exact (increment_apply_frame i s).2.2.2.trans h
  | ready_for_transfer => exact h
  | ready_for_analysis => exact h
  | transfers_complete =>
    simp only [tracker_op.apply, check_transfers_complete]
    split <;> simp [h]
  | observations_complete g =>
    simp only [tracker_op.apply, check_observations_complete]
    cases DEBUG <;> simp only [Bool.false_eq_true, if_true, if_false] <;> split <;> simp [h]

theorem run_ops_transfers_complete (DEBUG : Bool) (ops : List tracker_op) :
    ∀ s : observation_loop_state, s.transfers_complete = true →
      (run_ops DEBUG ops s).transfers_complete = true := by
  induction ops with
  | nil => intro s h; exact h
  | cons op rest ih =>
    intro s h
    exact ih _ (tracker_op_apply_transfers_complete DEBUG op s h)

/-- C7: once `transfers_complete` is set, after any sequence of tracker operations (the
four increments and the four checks) the flag is still set and
`check_ready_for_transfer` returns false. -/
theorem C7_transfer_gate_closed_for_good (DEBUG : Bool) (s : observation_loop_state)
    (ops : List tracker_op) (h : s.transfers_complete = true) :
    (run_ops DEBUG ops s).transfers_complete = true ∧
    (check_ready_for_transfer (run_ops DEBUG ops s)).1 = false := by
  have ht := run_ops_transfers_complete DEBUG ops s h
  refine ⟨ht, ?_⟩
  simp [check_ready_for_transfer, ht]

/-- C7 witness: from the tracker with all counters at 59 and `transfers_complete` set,
through increments and each of the checks. -/
theorem C7_transfer_gate_closed_for_good_witness :
    (run_ops false
      [tracker_op.incr increment.blocks_transferred, tracker_op.ready_for_transfer,
        tracker_op.incr increment.blocks_analyzed, tracker_op.transfers_complete,
        tracker_op.ready_for_analysis, tracker_op.observations_complete 3,
        tracker_op.incr increment.blocks_transfer_queue]
      (level 59 true)).transfers_complete = true ∧
    (check_ready_for_transfer (run_ops false
      [tracker_op.incr increment.blocks_transferred, tracker_op.ready_for_transfer,
        tracker_op.incr increment.blocks_analyzed, tracker_op.transfers_complete,
        tracker_op.ready_for_analysis, tracker_op.observations_complete 3,
        tracker_op.incr increment.blocks_transfer_queue]
      (level 59 true))).1 = false :=
  C7_transfer_gate_closed_for_good false (level 59 true) _ (by decide)

/-- C8: in the reference configuration (the build without `DEBUG`, `N_AVERAGING` 16) the
macros evaluate, in `int` arithmetic, to `N_TIMESTEPS_PER_GEMM` = 256,
`N_CX_IN_PER_GEMM` = 64*256*256 = 4194304, `N_BYTES_PRE_EXPANSION_PER_GEMM` = 4194304
(the product by `N_CX` is exactly twice it) and `N_BYTES_PER_BLOCK` = 4194304*64 =
268435456; the configuration is the one stated and no product leaves the `int` range. -/
theorem C8_reference_configuration_constants :
    (N_ANTENNAS = 64 ∧ N_FREQUENCIES = 256 ∧ N_BEAMS = 256 ∧ N_POL = 2 ∧
      N_AVERAGING false = 16 ∧ N_OUTPUTS_PER_GEMM = 8 ∧ N_GEMMS_PER_BLOCK = 64) ∧
    N_TIMESTEPS_PER_GEMM false = 256 ∧
    N_CX_IN_PER_GEMM false = 64 * 256 * 256 ∧
    N_CX_IN_PER_GEMM false = 4194304 ∧
    N_BYTES_PRE_EXPANSION_PER_GEMM false = 4194304 ∧
    N_CX_IN_PER_GEMM false * N_CX = 2 * N_BYTES_PRE_EXPANSION_PER_GEMM false ∧
    N_BYTES_PER_BLOCK false = 4194304 * 64 ∧
    N_BYTES_PER_BLOCK false = 268435456 ∧
    N_POL * N_AVERAGING false < 2147483648 ∧
    N_OUTPUTS_PER_GEMM * N_INPUTS_PER_OUTPUT false < 2147483648 ∧
    N_ANTENNAS * N_FREQUENCIES * N_TIMESTEPS_PER_GEMM false < 2147483648 ∧
    N_CX_IN_PER_GEMM false * N_CX < 2147483648 ∧
    N_BYTES_PRE_EXPANSION_PER_GEMM false * N_GEMMS_PER_BLOCK < 2147483648 := by
  decide

/-! ### Pinned memory -/

/-- When every `cudaHostRegister` succeeds the loop registers the segments in order. -/
theorem dbregister_loop_ok (ext : externals) (hok : ∀ i, ext.cudaHostRegister i = true)
    (remaining : Nat) :
    ∀ (ibuf : Nat) (registered : List Nat),
      dada_handler.dbregister_loop ext remaining ibuf registered
        = (0, registered ++ List.range' ibuf remaining) := by
  induction remaining with
  | zero => intro ibuf registered; simp [dada_handler.dbregister_loop]
  | succ k ih =>
    intro ibuf registered
    simp [dada_handler.dbregister_loop, hok, ih, List.range'_succ]

/-- When every `cudaHostUnregister` succeeds the loop unregisters each segment once. -/
theorem dbunregister_loop_ok (ext : externals) (hok : ∀ i, ext.cudaHostUnregister i = true)
    (remaining : Nat) :
    ∀ ibuf : Nat,
      dada_handler.dbunregister_loop ext remaining ibuf (List.range' ibuf remaining)
        = (0, []) := by
  induction remaining with
  | zero => intro ibuf; simp [dada_handler.dbunregister_loop]
  | succ k ih =>
    intro ibuf
    simp [dada_handler.dbunregister_loop, hok, ih, List.range'_succ]

/-- A failing `cudaHostRegister` inside the range of the loop makes it return -1. -/
theorem dbregister_loop_fails (ext : externals) (remaining : Nat) :
    ∀ (ibuf : Nat) (registered : List Nat) (j : Nat), ibuf ≤ j → j < ibuf + remaining →
      ext.cudaHostRegister j = false →
      (dada_handler.dbregister_loop ext remaining ibuf registered).1 = -1 := by
  induction remaining with
  | zero => intro ibuf registered j h1 h2; omega
  | succ k ih =>
    intro ibuf registered j h1 h2 hj
    simp only [dada_handler.dbregister_loop]
    split
    · rename_i hreg
      have hne : ibuf ≠ j := by rintro rfl; simp [hj] at hreg
      exact ih (ibuf + 1) _ j (by omega) (by omega) hj
    · rfl

/-- Acquisition: with host-resident segments, a failing `cudaHostRegister` on any segment
makes the constructor end the process with `exit(-1)`. -/
theorem constructor_exits_on_register_failure (ext : externals) (db : ipcbuf)
    (hdev : db.device < 0) (j : Nat) (hj : j < db.nbufs)
    (hfail : ext.cudaHostRegister j = false) :
    dada_handler.new ext db = outcome.exited (-1) := by
  unfold dada_handler.new
  by_cases h1 : ext.dada_hdu_connect < 0
  · simp [h1]
  by_cases h2 : ext.dada_hdu_lock_read < 0
  · simp [h1, h2]
  simp only [h1, h2, if_false]
  have hr : (dada_handler.dada_cuda_dbregister ext db []).1 < 0 := by
    unfold dada_handler.dada_cuda_dbregister
    by_cases h3 : ext.ipcbuf_lock < 0
    · simp [h3]
    · have h4 : ¬ db.device ≥ 0 := by omega
      simp only [h3, h4, if_false]
      rw [dbregister_loop_fails ext db.nbufs 0 [] j (by omega) (by omega) hfail]
      decide
  simp [hr]

/-- Acquisition and release when no call fails: the constructor registers exactly the
segments `0 .. nbufs-1` and the destructor leaves none of them registered. -/
theorem register_unregister_paired (ext : externals) (db : ipcbuf) (hdev : db.device < 0)
    (hc : 0 ≤ ext.dada_hdu_connect) (hl : 0 ≤ ext.dada_hdu_lock_read)
    (hi : 0 ≤ ext.ipcbuf_lock) (hreg : ∀ i, ext.cudaHostRegister i = true)
    (hunreg : ∀ i, ext.cudaHostUnregister i = true) :
    dada_handler.new ext db
      = outcome.returned ⟨db, 0, 0, List.range' 0 db.nbufs⟩ ∧
    dada_handler.destroy ext ⟨db, 0, 0, List.range' 0 db.nbufs⟩
      = outcome.returned ⟨db, 0, 0, []⟩ := by
  have h1 : ¬ ext.dada_hdu_connect < 0 := by omega
  have h2 : ¬ ext.dada_hdu_lock_read < 0 := by omega
  have h3 : ¬ ext.ipcbuf_lock < 0 := by omega
  have h4 : ¬ db.device ≥ 0 := by omega
  constructor
  · simp [dada_handler.new, dada_handler.dada_cuda_dbregister, h1, h2, h3, h4,
      dbregister_loop_ok ext hreg]
  · simp [dada_handler.destroy, dada_handler.dada_cuda_dbunregister, h4,
      dbunregister_loop_ok ext hunreg]

/-- C9 (the code at the failing input): on a ring buffer with two host-resident segments
on which `cudaHostUnregister` fails for segment 0, the constructor returns with segments
0 and 1 registered, `dada_cuda_dbunregister` returns -1 having unregistered nothing, and
the destructor nevertheless returns normally, leaving both segments registered. -/
theorem C9_destructor_ignores_unregister_failure :
    dada_handler.new unregister_fails_on_first ⟨2, -1⟩
      = outcome.returned ⟨⟨2, -1⟩, 0, 0, [0, 1]⟩ ∧
    dada_handler.dada_cuda_dbunregister unregister_fails_on_first ⟨2, -1⟩ [0, 1]
      = (-1, [0, 1]) ∧
    dada_handler.destroy unregister_fails_on_first ⟨⟨2, -1⟩, 0, 0, [0, 1]⟩
      = outcome.returned ⟨⟨2, -1⟩, 0, 0, [0, 1]⟩ := by
  decide

/-! ### Geometry loading -/

/-- One extraction uses up at most one value of the budget, and with no budget left a
variable that holds 0 still holds 0. -/
theorem extract_float_budget {F : Type} [Zero F] [DecidableEq F] (g : num_get F)
    (st : ifstream) (v : F) (n : Nat) (h : within_budget g st n) :
    within_budget g (st.extract_float g v).1 (n - 1) ∧
    (n = 0 → v = 0 → (st.extract_float g v).2 = 0) := by
  unfold within_budget at *
  unfold ifstream.extract_float
  cases hg : st.good with
  | false => simp [hg]
  | true =>
    have hb := h hg
    simp only [if_true]
    cases n with
    | zero =>
      simp only [at_most_values] at hb
      rcases hgf : g.get_float st.chars with ⟨sc, rest⟩
      rw [hgf] at hb
      cases sc with
      | value x => simp at hb
      | failed x =>
        simp only [decide_eq_true_eq] at hb
        simp [hb]
      | at_end => simp
    | succ k =>
      simp only [at_most_values] at hb
      rcases hgf : g.get_float st.chars with ⟨sc, rest⟩
      rw [hgf] at hb
      cases sc with
      | value x => simpa using hb
      | failed x => simp
      | at_end => simp

/-- The loop leaves every entry from index `N` on at (0,0,0) when it found it so and the
stream has no more values than those of the rows before `N`. -/
theorem read_positions_loop_keeps_tail {F : Type} [Zero F] [DecidableEq F] (g : num_get F)
    (N : Nat) (remaining : Nat) :
    ∀ (ant : Nat) (st : ifstream) (pos : Nat → antenna F) (n : Nat),
      within_budget g st n → n ≤ 3 * (N - ant) →
      (∀ i : Nat, N ≤ i → pos i = ⟨0, 0, 0⟩) →
      ∀ i : Nat, N ≤ i → (read_positions_loop g remaining ant st pos).2 i = ⟨0, 0, 0⟩ := by
  induction remaining with
  | zero => intro ant st pos n _ _ hpos i hi; exact hpos i hi
  | succ k ih =>
    intro ant st pos n hb hn hpos i hi
    obtain ⟨bx, vx⟩ := extract_float_budget g st (pos ant).x n hb
    obtain ⟨by', vy⟩ := extract_float_budget g (st.extract_float g (pos ant).x).1 (pos ant).y
      (n - 1) bx
    obtain ⟨bz, vz⟩ := extract_float_budget g
      ((st.extract_float g (pos ant).x).1.extract_float g (pos ant).y).1 (pos ant).z
      (n - 1 - 1) by'
    simp only [read_positions_loop]
    refine ih (ant + 1) _ _ (n - 1 - 1 - 1) bz (by omega) ?_ i hi
    intro j hj
    by_cases hja : j = ant
    · have hn0 : n = 0 := by omega
      have hz := hpos ant (by omega)
      subst hja
      simp only [if_true]
      rw [vx hn0 (by rw [hz]), vy (by omega) (by rw [hz]), vz (by omega) (by rw [hz])]
    · simp only [hja, if_false]
      exact hpos j hj

/-- C10 (as amended): for a position file that starts with the count `N`, less than
`N_ANTENNAS`, and holds no more than the `N` rows (`3 * N` values) after it, and a position
array of default-constructed entries, `read_in_position_locations` returns (the process
goes on) with value 0, sets `*pos_set`, prints the mismatch warning, and leaves every
entry of index at least `N` at (0,0,0). -/
theorem C10_tolerant_position_loading {F : Type} [Zero F] [DecidableEq F] (g : num_get F)
    (cs rest : List Char) (N nant : Int) (pos : Nat → antenna F)
    (hcount : g.get_int cs = (scan.value N, rest)) (hN : N < N_ANTENNAS)
    (hrows : at_most_values g (3 * N.toNat) rest = true)
    (hpos : ∀ i, pos i = antenna.new) :
    ∃ r : position_result F,
      read_in_position_locations g (some cs) nant pos = outcome.returned r ∧
      r.status = 0 ∧ r.pos_set = true ∧ r.warned = true ∧
      ∀ i : Nat, N ≤ (i : Int) → r.pos i = ⟨0, 0, 0⟩ := by
  refine ⟨_, rfl, rfl, rfl, ?_, ?_⟩
  · simp only [ifstream.open, ifstream.extract_int, hcount, if_true, decide_eq_true_eq]
    exact ne_of_lt hN
  · intro i hi
    simp only [ifstream.open, ifstream.extract_int, hcount, if_true]
    exact read_positions_loop_keeps_tail g N.toNat _ 0 _ pos (3 * N.toNat) (fun _ => hrows)
      (by omega) (fun j _ => hpos j) i (by omega)

/-- C10 witness: the file `1`, `5 6 7`, which declares one antenna and gives its row. -/
theorem C10_tolerant_position_loading_witness :
    ∃ r : position_result decimal,
      read_in_position_locations decimal_num_get (some ("1\n5 6 7\n").toList) 0
          (fun _ => antenna.new) = outcome.returned r ∧
      r.status = 0 ∧ r.pos_set = true ∧ r.warned = true ∧
      ∀ i : Nat, (1 : Int) ≤ (i : Int) → r.pos i = ⟨0, 0, 0⟩ :=
  C10_tolerant_position_loading decimal_num_get ("1\n5 6 7\n").toList ("\n5 6 7\n").toList
    1 0 _ (by decide) (by decide) (by decide) (fun _ => rfl)

/-- C10 counterexample: the file `1`, `5 6 7`, `8 9 10` declares one antenna, fewer than
`N_ANTENNAS`, and the array starts default-constructed; the function returns 0 and the
entry of index 1 is (8,9,10), not (0,0,0). -/
theorem C10_rows_beyond_the_count_are_loaded :
    decimal_get_int ("1\n5 6 7\n8 9 10\n").toList
      = (scan.value 1, ("\n5 6 7\n8 9 10\n").toList) ∧
    ∃ r : position_result decimal,
      read_in_position_locations decimal_num_get (some ("1\n5 6 7\n8 9 10\n").toList) 0
          (fun _ => antenna.new) = outcome.returned r ∧
      r.status = 0 ∧ r.pos_set = true ∧
      r.pos 0 = ⟨5, 6, 7⟩ ∧ r.pos 1 = ⟨8, 9, 10⟩ ∧ r.pos 1 ≠ ⟨0, 0, 0⟩ ∧
      r.pos 2 = ⟨0, 0, 0⟩ := by
  refine ⟨by decide, _, rfl, rfl, rfl, ?_, ?_, ?_, ?_⟩ <;> decide

/-- An extraction stops inside a field: in the file `1.0`, `5 6 7` the count is 1 and the
rest of its field is read as the first coordinate, so that the entry of index 1 receives
the value 7 before the stream fails. -/
theorem extraction_stops_inside_a_field :
    decimal_get_int ("1.0\n5 6 7\n").toList = (scan.value 1, (".0\n5 6 7\n").toList) ∧
    decimal_get_float ("7-8").toList = (scan.value 7, ("-8").toList) ∧
    decimal_get_float ("-8").toList = (scan.value ⟨-8, 0⟩, []) ∧
    ∃ r : position_result decimal,
      read_in_position_locations decimal_num_get (some ("1.0\n5 6 7\n").toList) 0
          (fun _ => antenna.new) = outcome.returned r ∧
      r.pos 0 = ⟨0, 5, 6⟩ ∧ r.pos 1 = ⟨7, 0, 0⟩ := by
  refine ⟨by decide, by decide, by decide, _, rfl, ?_, ?_⟩ <;> decide

/-- A number out of range stores the extreme value and fails the stream. -/
theorem extraction_out_of_range :
    decimal_get_int ("99999999999 1").toList
      = (scan.failed 2147483647, (" 1").toList) ∧
    decimal_get_float ("1e39 1").toList
      = (scan.failed ⟨340282346638528859811704183484516925440, 0⟩, (" 1").toList) := by
  decide

/-! ### The streaming signal and the tracker -/

/-- One operation leaves `transfers_complete` false while fewer than 59 blocks have been
queued: the increments and the other checks never assign it, and the condition of
`check_transfers_complete` is false. -/
theorem tracker_op_apply_keeps_unset (DEBUG : Bool) (op : tracker_op)
    (s : observation_loop_state) (htc : s.transfers_complete = false)
    (hq : s.blocks_transfer_queue + transfer_queue_calls [op] ≤ 58) :
    (op.apply DEBUG s).transfers_complete = false ∧
    (op.apply DEBUG s).blocks_transfer_queue
      = s.blocks_transfer_queue + transfer_queue_calls [op] := by
  have h64 : int_to_uint64 N_GEMMS_PER_BLOCK = 64 := by decide
  have hpt : int_to_uint64 N_PT_SOURCES = 3721 := by decide
  cases op with
  | incr i =>
    cases i <;>
      simp only [transfer_queue_calls, Nat.add_zero, Nat.zero_add] at hq ⊢ <;>
      refine ⟨htc, ?_⟩
    · rfl
    · rfl
    · rfl
    · show uint64_incr s.blocks_transfer_queue = s.blocks_transfer_queue + 1
      unfold uint64_incr UINT64_MOD
      omega
  | ready_for_transfer => exact ⟨htc, rfl⟩
  | ready_for_analysis => exact ⟨htc, rfl⟩
  | transfers_complete =>
    simp only [transfer_queue_calls, Nat.add_zero] at hq ⊢
    have hlt : ¬ uint64_mul s.blocks_transfer_queue (int_to_uint64 N_GEMMS_PER_BLOCK)
        ≥ int_to_uint64 N_PT_SOURCES := by
      rw [h64, hpt]
      unfold uint64_mul UINT64_MOD
      omega
    simp only [tracker_op.apply, check_transfers_complete, hlt, if_false]
    exact ⟨htc, trivial⟩
  | observations_complete g =>
    simp only [transfer_queue_calls, Nat.add_zero] at hq ⊢
    simp only [tracker_op.apply, check_observations_complete]
    cases DEBUG <;> simp [htc]

theorem transfer_queue_calls_cons (op : tracker_op) (rest : List tracker_op) :
    transfer_queue_calls (op :: rest)
      = transfer_queue_calls [op] + transfer_queue_calls rest := by
  cases op with
  | incr i =>
    cases i <;> simp [transfer_queue_calls]
    omega
  | ready_for_transfer => simp [transfer_queue_calls]
  | ready_for_analysis => simp [transfer_queue_calls]
  | transfers_complete => simp [transfer_queue_calls]
  | observations_complete g => simp [transfer_queue_calls]

/-- Whatever public operations of the tracker a caller performs, in whatever order, while
at most 58 blocks have been queued for transfer the tracker's `transfers_complete` stays
false and `check_observations_complete` returns false: no call reachable from a short
read assigns the flag. -/
theorem tracker_flag_unset_below_bounded_total (DEBUG : Bool) (ops : List tracker_op) :
    ∀ s : observation_loop_state, s.transfers_complete = false →
      s.blocks_transfer_queue + transfer_queue_calls ops ≤ 58 →
      (run_ops DEBUG ops s).transfers_complete = false ∧
      ∀ g : Int, (check_observations_complete DEBUG (run_ops DEBUG ops s) g).1 = false := by
  induction ops with
  | nil =>
    intro s htc _
    refine ⟨htc, fun g => ?_⟩
    simp only [run_ops, check_observations_complete]
    cases DEBUG <;> simp [htc]
  | cons op rest ih =>
    intro s htc hq
    rw [transfer_queue_calls_cons] at hq
    obtain ⟨h1, h2⟩ := tracker_op_apply_keeps_unset DEBUG op s htc (by omega)
    exact ih (op.apply DEBUG s) h1 (by rw [h2]; omega)

/-- C5 (the code at the failing input): a reader yields two blocks of 4 bytes (the block
size) and then one of 1 byte. `dada_handler::check_transfers_complete` returns false on the
full blocks and, on the short one, returns true and sets the variable it assigns. The
tracker meanwhile receives two calls of each increment, each under its gate, and is asked
`check_transfers_complete`; its own `transfers_complete` stays false, so after exactly two
`increment_blocks_analyzed` calls and the short block `check_observations_complete` still
returns false. -/
theorem C5_short_block_does_not_complete_the_observation :
    dada_handler.read ⟨⟨0, 0⟩, 4, 0, []⟩ [4, 4, 1] = some (⟨⟨0, 0⟩, 4, 4, []⟩, [4, 1]) ∧
    dada_handler.check_transfers_complete ⟨⟨0, 0⟩, 4, 4, []⟩ false = (false, false) ∧
    dada_handler.read ⟨⟨0, 0⟩, 4, 4, []⟩ [4, 1] = some (⟨⟨0, 0⟩, 4, 4, []⟩, [1]) ∧
    dada_handler.read ⟨⟨0, 0⟩, 4, 4, []⟩ [1] = some (⟨⟨0, 0⟩, 4, 1, []⟩, []) ∧
    dada_handler.check_transfers_complete ⟨⟨0, 0⟩, 4, 1, []⟩ false = (true, true) ∧
    run_gated
        [increment.blocks_transfer_queue, increment.blocks_transferred,
          increment.blocks_transfer_queue, increment.blocks_analysis_queue,
          increment.blocks_analyzed, increment.blocks_transferred,
          increment.blocks_analysis_queue, increment.blocks_analyzed]
        (observation_loop_state.new 2 4)
      = some (observation_loop_state.mk 2 2 2 2 2 4 false false) ∧
    check_transfers_complete (observation_loop_state.mk 2 2 2 2 2 4 false false)
      = (false, observation_loop_state.mk 2 2 2 2 2 4 false false) ∧
    check_observations_complete false (observation_loop_state.mk 2 2 2 2 2 4 false false) 0
      = (false, observation_loop_state.mk 2 2 2 2 2 4 false false) := by
  decide

/-! ### No deadlock under gating -/

theorem tracks_set_transfers_complete {s : observation_loop_state} {A AQ T TQ : Nat}
    (h : tracks s A AQ T TQ) : tracks { s with transfers_complete := true } A AQ T TQ := h

/-- Every state reached by events from a tracked state is tracked, by counts whose sum has
grown by the number of increments, and has the bounds it started with. -/
theorem tracks_run_events (evs : List gated_event) :
    ∀ (s s' : observation_loop_state) (A AQ T TQ : Nat), tracks s A AQ T TQ →
      run_events evs s = some s' →
      (∃ A' AQ' T' TQ', tracks s' A' AQ' T' TQ' ∧
        A' + AQ' + T' + TQ' = A + AQ + T + TQ + increment_count evs) ∧
      s'.maximum_transfer_seperation = s.maximum_transfer_seperation ∧
      s'.maximum_total_seperation = s.maximum_total_seperation := by
  induction evs with
  | nil =>
    intro s s' A AQ T TQ h hr
    simp only [run_events, Option.some.injEq] at hr
    subst hr
    exact ⟨⟨A, AQ, T, TQ, h, by simp [increment_count]⟩, rfl, rfl⟩
  | cons e rest ih =>
    intro s s' A AQ T TQ h hr
    cases e with
    | set_transfers_complete =>
      simp only [run_events, gated_event.step] at hr
      obtain ⟨⟨A', AQ', T', TQ', ht, hs⟩, b1, b2⟩ :=
        ih _ _ _ _ _ _ (tracks_set_transfers_complete h) hr
      exact ⟨⟨A', AQ', T', TQ', ht, by simp only [increment_count]; omega⟩, b1, b2⟩
    | incr i =>
      simp only [run_events, gated_event.step] at hr
      by_cases hg : i.gate s = true
      · simp only [hg, if_true] at hr
        obtain ⟨f1, f2, _, _⟩ := increment_apply_frame i s
        cases i with
        | blocks_analyzed =>
          simp only [increment.gate, decide_eq_true_eq] at hg
          obtain ⟨⟨A', AQ', T', TQ', ht, hs⟩, b1, b2⟩ :=
            ih _ _ _ _ _ _ (tracks_analyzed h hg) hr
          exact ⟨⟨A', AQ', T', TQ', ht, by simp only [increment_count]; omega⟩,
            b1.trans f1, b2.trans f2⟩
        | blocks_transferred =>
          simp only [increment.gate, decide_eq_true_eq] at hg
          obtain ⟨⟨A', AQ', T', TQ', ht, hs⟩, b1, b2⟩ :=
            ih _ _ _ _ _ _ (tracks_transferred h hg) hr
          exact ⟨⟨A', AQ', T', TQ', ht, by simp only [increment_count]; omega⟩,
            b1.trans f1, b2.trans f2⟩
        | blocks_analysis_queue =>
          simp only [increment.gate, check_ready_for_analysis, decide_eq_true_eq] at hg
          obtain ⟨⟨A', AQ', T', TQ', ht, hs⟩, b1, b2⟩ :=
            ih _ _ _ _ _ _ (tracks_analysis_queue h hg) hr
          exact ⟨⟨A', AQ', T', TQ', ht, by simp only [increment_count]; omega⟩,
            b1.trans f1, b2.trans f2⟩
        | blocks_transfer_queue =>
          simp only [increment.gate] at hg
          obtain ⟨⟨A', AQ', T', TQ', ht, hs⟩, b1, b2⟩ :=
            ih _ _ _ _ _ _ (tracks_transfer_queue h hg) hr
          exact ⟨⟨A', AQ', T', TQ', ht, by simp only [increment_count]; omega⟩,
            b1.trans f1, b2.trans f2⟩
      · simp [hg] at hr

/-- A run of increments alone is a gated run. -/
theorem run_events_map_incr (incs : List increment) :
    ∀ s : observation_loop_state,
      run_events (incs.map gated_event.incr) s = run_gated incs s := by
  induction incs with
  | nil => intro s; rfl
  | cons i rest ih =>
    intro s
    simp only [List.map_cons, run_events, gated_event.step, run_gated]
    by_cases hg : i.gate s = true
    · simp only [hg, if_true]; exact ih _
    · simp [hg]

/-- C11 (as amended): no deadlock under gating. For a tracker constructed with both
bounds at least 1, in every state reached from the initial state by gated increments and
by setting `transfers_complete`: when the completion condition (`blocks_analyzed ==
blocks_transfer_queue` and `transfers_complete`) holds no gated increment is enabled; and
when fewer than 2^64 increments were performed, either one of the four gated increments is
enabled or the completion condition holds. -/
theorem C11_no_deadlock_under_gating (mts mtot : Nat) (h1 : 1 ≤ mts) (h2 : 1 ≤ mtot)
    (hmtot : mtot < UINT64_MOD) (evs : List gated_event) (s : observation_loop_state)
    (hr : run_events evs (observation_loop_state.new mts mtot) = some s) :
    ((s.blocks_analyzed = s.blocks_transfer_queue ∧ s.transfers_complete = true) →
      ∀ i : increment, i.gate s = false) ∧
    (increment_count evs < UINT64_MOD →
      (∃ i : increment, i.gate s = true) ∨
      (s.blocks_analyzed = s.blocks_transfer_queue ∧ s.transfers_complete = true)) := by
  obtain ⟨⟨A, AQ, T, TQ, ht, hsum⟩, b1, b2⟩ :=
    tracks_run_events evs _ s 0 0 0 0 (tracks_new mts mtot hmtot) hr
  have b1' : s.maximum_transfer_seperation = mts := b1
  have b2' : s.maximum_total_seperation = mtot := b2
  have e1 := tracks_sub_analyzed ht
  have e2 := tracks_sub_transferred ht
  obtain ⟨ha, haq, htt, htq, o1, o2, o3, _, d2, hm⟩ := ht
  constructor
  · rintro ⟨heq, htc⟩ i
    have hAT : A = TQ := by
      rw [ha, htq] at heq
      unfold UINT64_MOD at *
      omega
    have hAQ : AQ = TQ := by omega
    have hT : T = TQ := by omega
    cases i <;>
      simp [increment.gate, check_ready_for_transfer, check_ready_for_analysis, htc, ha, haq,
        htt, htq, hAT, hAQ, hT]
  · intro hlen
    have ca : s.blocks_analyzed = A := by rw [ha]; unfold UINT64_MOD at *; omega
    have caq : s.blocks_analysis_queue = AQ := by rw [haq]; unfold UINT64_MOD at *; omega
    have ct : s.blocks_transferred = T := by rw [htt]; unfold UINT64_MOD at *; omega
    have ctq : s.blocks_transfer_queue = TQ := by rw [htq]; unfold UINT64_MOD at *; omega
    by_cases g1 : A < AQ
    · exact Or.inl ⟨increment.blocks_analyzed, by simp [increment.gate, ca, caq, g1]⟩
    by_cases g2 : AQ < T
    · exact Or.inl ⟨increment.blocks_analysis_queue,
        by simp [increment.gate, check_ready_for_analysis, caq, ct, g2]⟩
    by_cases g3 : T < TQ
    · exact Or.inl ⟨increment.blocks_transferred, by simp [increment.gate, ct, ctq, g3]⟩
    cases htc : s.transfers_complete with
    | true => exact Or.inr ⟨by omega, rfl⟩
    | false =>
      refine Or.inl ⟨increment.blocks_transfer_queue, ?_⟩
      simp only [increment.gate, check_ready_for_transfer, e1, e2, b1', b2', htc,
        Bool.not_false, Bool.and_true, Bool.and_eq_true, decide_eq_true_eq]
      omega

/-- C11 witness: with the bounds (2, 4), one block queued, the transfers declared complete,
then the block transferred; `increment_blocks_analysis_queue` is enabled. -/
theorem C11_no_deadlock_under_gating_witness :
    (increment.blocks_analysis_queue.gate
        (observation_loop_state.mk 0 1 0 1 2 4 false true) = true) ∧
    ((∃ i : increment, i.gate (observation_loop_state.mk 0 1 0 1 2 4 false true) = true) ∨
      ((0 : Nat) = 1 ∧ true = true)) :=
  ⟨by decide,
    (C11_no_deadlock_under_gating 2 4 (by decide) (by decide) (by decide)
      [gated_event.incr increment.blocks_transfer_queue, gated_event.set_transfers_complete,
        gated_event.incr increment.blocks_transferred]
      (observation_loop_state.mk 0 1 0 1 2 4 false true) (by decide)).2 (by decide)⟩

/-- C11 counterexample: with the bounds (2, 4), taking 2^64 - 1 blocks through the
pipeline one at a time and queueing two more blocks for transfer is a gated run; it leaves
`blocks_transfer_queue` wrapped to 1 and the three other counters at 2^64 - 1, a state in
which no gated increment is enabled and the completion condition does not hold. -/
theorem C11_deadlock_after_wraparound :
    run_events
        ((block_cycles 18446744073709551615 ++
          [increment.blocks_transfer_queue, increment.blocks_transfer_queue]).map
            gated_event.incr)
        (observation_loop_state.new 2 4)
      = some (observation_loop_state.mk 18446744073709551615 18446744073709551615
          18446744073709551615 1 2 4 false false) ∧
    (∀ i : increment, i.gate (observation_loop_state.mk 18446744073709551615
          18446744073709551615 18446744073709551615 1 2 4 false false) = false) ∧
    ¬ ((observation_loop_state.mk 18446744073709551615 18446744073709551615
          18446744073709551615 1 2 4 false false).blocks_analyzed
        = (observation_loop_state.mk 18446744073709551615 18446744073709551615
          18446744073709551615 1 2 4 false false).blocks_transfer_queue ∧
      (observation_loop_state.mk 18446744073709551615 18446744073709551615
          18446744073709551615 1 2 4 false false).transfers_complete = true) := by
  refine ⟨?_, ?_, ?_⟩
  · have h := run_gated_block_cycles 18446744073709551615 0 (by unfold UINT64_MOD; omega)
    have e : observation_loop_state.new 2 4 = level 0 false := rfl
    rw [run_events_map_incr, run_gated_append, e, h]
    simp only [Nat.zero_add, Option.bind]
    simp [run_gated, increment.gate, increment.apply, level, check_ready_for_transfer,
      increment_blocks_transfer_queue, uint64_sub, uint64_incr, UINT64_MOD]
  · intro i
    cases i <;>
      simp [increment.gate, check_ready_for_transfer, check_ready_for_analysis, uint64_sub,
        UINT64_MOD]
  · simp

end Beamformer
